import Mathlib

/-!
Verification of the embedding/similarity subsystem of the repository
(src/src/services/EmbeddingService.ts), shallowly embedded in Lean.

Modelling conventions:
* JavaScript double-precision numbers are modelled as real numbers with
  exact arithmetic.  The IEEE value NaN, which in this code can only arise
  from the division 0/0 inside cosine similarity (a zero denominator forces
  a zero numerator, see the comment at calculateSimilarity), is modelled
  explicitly by the none case of an Option.
* Strings are modelled through their character lists; the regular
  expressions of the source act on whitespace runs and character classes
  and are embedded as recursive functions on List Char.
* The stateful backend singleton is modelled by explicit state passing;
  the nondeterministic environment (GPU/CPU pipeline acquisition, the
  feature-extraction call, Math.random) is a record of oracles.
-/

open scoped Classical

/-- Whitespace test for the ASCII part of the regex class backslash-s
(space, tab, line feed, carriage return, vertical tab, form feed). -/
def isWs (c : Char) : Bool :=
  c = ' ' || c = '\t' || c = '\n' || c = '\r' || c = '\x0b' || c = '\x0c'

/-- JS String.prototype.split on one-or-more-whitespace, over char lists:
splits at maximal whitespace runs, yielding an empty field before a leading
run and after a trailing run, and a single empty field for the empty
string.  Used by chunkText via text.split on the whitespace regex. -/
def splitWs : List Char → List (List Char)
  | [] => [[]]
  | c :: cs =>
    if isWs c then
      match cs with
      | [] => [[], []]
      | c2 :: _ => if isWs c2 then splitWs cs else [] :: splitWs cs
    else (splitWs cs).modifyHead (fun w => c :: w)

/-- text.split on the whitespace regex, as a function on String. -/
def jsSplitWs (s : String) : List String :=
  (splitWs s.data).map String.mk

/-- The regex class backslash-w: ASCII letters, digits and underscore. -/
def wordChar (c : Char) : Bool :=
  ('a' ≤ c && c ≤ 'z') || ('A' ≤ c && c ≤ 'Z') || ('0' ≤ c && c ≤ '9') || c = '_'

/-- Characters kept by the second replace of preprocessText: anything
matching the class of word characters, whitespace, '.', ',', '!', '?',
'-' is kept, the rest is removed. -/
def keepChar (c : Char) : Bool :=
  wordChar c || isWs c || c = '.' || c = ',' || c = '!' || c = '?' || c = '-'

/-- First replace of preprocessText: every maximal whitespace run is
replaced by a single space. -/
def collapseWs : List Char → List Char
  | [] => []
  | c :: cs =>
    if isWs c then
      match cs with
      | [] => [' ']
      | c2 :: _ => if isWs c2 then collapseWs cs else ' ' :: collapseWs cs
    else c :: collapseWs cs

/-- JS String.prototype.trim: strips whitespace from both ends. -/
def jsTrim (l : List Char) : List Char :=
  ((l.dropWhile isWs).reverse.dropWhile isWs).reverse

/-- preprocessText from EmbeddingService: collapse whitespace runs to
single spaces, remove characters outside the allowed class, trim, then
slice to the first 4000 characters. -/
def preprocessText (s : String) : String :=
  String.mk ((jsTrim ((collapseWs s.data).filter keepChar)).take 4000)

/-- The for-loop of chunkText: starting at index i, emit the slice of
chunkSize words joined by single spaces and advance by step, while the
index is below the word count.  The source computes step as
chunkSize - overlap; when that step is not positive the source loop never
terminates (the spec flags this as a latent bug), so the model is defined
on the terminating domain by the inner guard, which is never taken for
the parameters the claims quantify over (overlap < chunkSize). -/
def chunkLoop (words : List String) (chunkSize step i : ℕ) : List String :=
  if _hlt : i < words.length then
    String.intercalate " " ((words.drop i).take chunkSize) ::
      (if _hstep : 0 < step then chunkLoop words chunkSize step (i + step) else [])
  else []
termination_by words.length - i
decreasing_by omega

/-- chunkText from EmbeddingService: split the text on whitespace and
walk the word list with a window of chunkSize words advancing by
chunkSize - overlap.  (For overlap < chunkSize the truncated natural
subtraction agrees with the source's integer subtraction.) -/
def chunkText (text : String) (chunkSize overlap : ℕ) : List String :=
  chunkLoop (jsSplitWs text) chunkSize (chunkSize - overlap) 0

/-- A JavaScript number that is either an ordinary (real) value or NaN
(the none case). -/
abbrev JsNum := Option ℝ

/-- calculateSimilarity from EmbeddingService: throws on a dimension
mismatch, otherwise computes dot(a,b) / (sqrt(norm1) * sqrt(norm2)) with
the accumulation loop's products embedded as zipWith sums.  The source has
no special case for zero vectors: a zero denominator happens exactly when
one of the vectors is all zeros, which forces the dot product to 0, so the
IEEE result is 0/0 = NaN; the model makes that NaN explicit as the first
branch rather than relying on Lean's division-by-zero convention. -/
noncomputable def calculateSimilarity (a b : List ℝ) : Except String JsNum :=
  if a.length ≠ b.length then .error "Embeddings must have the same dimension"
  else
    let dotProduct := (List.zipWith (fun x y => x * y) a b).sum
    let norm1 := (List.zipWith (fun x y => x * y) a a).sum
    let norm2 := (List.zipWith (fun x y => x * y) b b).sum
    if Real.sqrt norm1 * Real.sqrt norm2 = 0 then .ok none
    else .ok (some (dotProduct / (Real.sqrt norm1 * Real.sqrt norm2)))

/-- An element of the documentEmbeddings argument of findSimilarDocuments;
the metadata field has type any in the source, so the model is polymorphic
in it. -/
structure DocEmbedding (M : Type) where
  id : String
  embedding : List ℝ
  metadata : M

/-- An element of the similarities array in findSimilarDocuments: the
document fields together with the computed similarity score (possibly
NaN). -/
structure ScoredDoc (M : Type) where
  id : String
  embedding : List ℝ
  metadata : M
  similarity : JsNum

/-- One step of the map in findSimilarDocuments: spread the document and
add the similarity; a dimension-mismatch exception propagates out of the
whole map, hence the Except. -/
noncomputable def scoreDoc {M : Type} (query : List ℝ) (d : DocEmbedding M) :
    Except String (ScoredDoc M) :=
  (calculateSimilarity query d.embedding).map
    (fun sim => ⟨d.id, d.embedding, d.metadata, sim⟩)

/-- The JS comparison x >= t for a number x that may be NaN: false on NaN. -/
def jsGe (x : JsNum) (t : ℝ) : Prop :=
  ∃ v, x = some v ∧ t ≤ v

/-- The JS comparison x >= y for two possibly-NaN numbers: false whenever
either side is NaN.  The sort comparator (a, b) => b.similarity -
a.similarity places a before b exactly when this holds of their scores. -/
def jsGeNum (x y : JsNum) : Prop :=
  ∃ u v, x = some u ∧ y = some v ∧ v ≤ u

/-- Insertion step of a stable descending sort: x goes in front of the
first element whose score it reaches.  Together with sortDesc this models
ES2019 Array.prototype.sort with the comparator (a, b) => b.similarity -
a.similarity, which is required to be stable: a precedes b exactly when
the comparator is nonpositive, ties keeping input order. -/
noncomputable def insertDesc {M : Type} (x : ScoredDoc M) :
    List (ScoredDoc M) → List (ScoredDoc M)
  | [] => [x]
  | y :: ys =>
    if jsGeNum x.similarity y.similarity then x :: y :: ys else y :: insertDesc x ys

/-- Stable descending-by-similarity sort (see insertDesc). -/
noncomputable def sortDesc {M : Type} (l : List (ScoredDoc M)) : List (ScoredDoc M) :=
  l.foldr insertDesc []

/-- findSimilarDocuments from EmbeddingService: score every document
against the query (a dimension mismatch in any document throws out of the
whole call), keep the scores at least the threshold, sort descending by
score with the stable comparator, and slice to the first limit entries. -/
noncomputable def findSimilarDocuments {M : Type} (queryEmbedding : List ℝ)
    (documentEmbeddings : List (DocEmbedding M)) (threshold : ℝ) (limit : ℕ) :
    Except String (List (ScoredDoc M)) :=
  (documentEmbeddings.mapM (scoreDoc queryEmbedding)).map
    (fun similarities =>
      (sortDesc (similarities.filter
        (fun d => decide (jsGe d.similarity threshold)))).take limit)

/-- The behaviour of an acquired feature-extraction pipeline on a cleaned
input text: some data on success, none when the call throws. -/
abbrev ExtractFn := String → Option (List ℝ)

/-- The environment a call runs in: the outcome of acquiring the
WebGPU-backed pipeline, the outcome of acquiring the CPU-backed fallback
pipeline (none meaning the acquisition throws), and the stream of values
produced by successive Math.random() calls. -/
structure Env where
  gpu : Option ExtractFn
  cpu : Option ExtractFn
  rand : ℕ → ℝ

/-- The singleton's mutable fields isInitialized and extractor. -/
structure BackendState where
  isInitialized : Bool
  extractor : Option ExtractFn

/-- Model of initialize() from EmbeddingService, as a state transformer
returning the new state and the error message of a thrown exception, if
any: return immediately when already initialized; otherwise try the GPU
acquisition, fall back to the CPU acquisition, and if both fail throw,
leaving both fields untouched (neither assignment executed). -/
def initBackend (env : Env) (s : BackendState) : BackendState × Option String :=
  if s.isInitialized then (s, none)
  else
    match env.gpu with
    | some f => (⟨true, some f⟩, none)
    | none =>
      match env.cpu with
      | some f => (⟨true, some f⟩, none)
      | none => (s, some "Failed to initialize local embedding model")

/-- The dummy embedding built in the catch branch of generateEmbedding:
384 fresh Math.random() values mapped through r * 2 - 1. -/
noncomputable def randomVector (rand : ℕ → ℝ) : List ℝ :=
  (List.range 384).map (fun i => rand i * 2 - 1)

/-- Model of generateEmbedding from EmbeddingService.  The lazy
initialize() call sits outside the try block, so its exception
propagates.  Inside the try, the extractor is applied to the preprocessed
text; any failure of that call (including extractor being null when the
state says initialized) is caught and replaced by the random dummy
vector. -/
noncomputable def generateEmbedding (env : Env) (s : BackendState) (text : String) :
    BackendState × Except String (List ℝ) :=
  match (if s.isInitialized then (s, none) else initBackend env s) with
  | (s1, some e) => (s1, .error e)
  | (s1, none) =>
    let cleanText := preprocessText text
    match s1.extractor with
    | some f =>
      match f cleanText with
      | some result => (s1, .ok result)
      | none => (s1, .ok (randomVector env.rand))
    | none => (s1, .ok (randomVector env.rand))

/-- The Euclidean norm of the spec's cosine formula, written from the
spec's words: square root of the sum of squared components. -/
noncomputable def l2norm (v : List ℝ) : ℝ :=
  Real.sqrt ((v.map (fun x => x ^ 2)).sum)

/-- The dot product of the spec's cosine formula, written from the
spec's words: sum of pairwise products. -/
noncomputable def dotSpec (a b : List ℝ) : ℝ :=
  ((a.zip b).map (fun p => p.1 * p.2)).sum

lemma sumSq_eq (a : List ℝ) :
    (List.zipWith (fun x y => x * y) a a).sum = (a.map (fun x => x ^ 2)).sum := by
  rw [List.zipWith_same]
  congr 1
  exact List.map_congr_left fun x _ => (sq x).symm

lemma dot_eq_dotSpec (a b : List ℝ) :
    (List.zipWith (fun x y => x * y) a b).sum = dotSpec a b := by
  unfold dotSpec
  rw [List.zip_eq_zipWith, List.map_zipWith]

lemma sqrt_sumSq_eq (a : List ℝ) :
    Real.sqrt (List.zipWith (fun x y => x * y) a a).sum = l2norm a := by
  rw [l2norm, sumSq_eq]

/-- C3: calculateSimilarity fails with the dimension-mismatch error when
the lengths differ (in particular on [1,0] against [1,0,0]), and on equal
lengths computes cosine similarity dot(a,b) / (l2norm a * l2norm b), with
no special-case handling for zero vectors: a zero denominator is not
guarded and produces the IEEE NaN (modelled as ok none). -/
theorem calculateSimilarity_cosine :
    (∀ a b : List ℝ, a.length ≠ b.length →
        calculateSimilarity a b = .error "Embeddings must have the same dimension")
    ∧ calculateSimilarity [(1:ℝ), 0] [1, 0, 0]
        = .error "Embeddings must have the same dimension"
    ∧ (∀ a b : List ℝ, a.length = b.length →
        calculateSimilarity a b =
          if l2norm a * l2norm b = 0 then .ok none
          else .ok (some (dotSpec a b / (l2norm a * l2norm b)))) := by
  refine ⟨?_, rfl, ?_⟩
  · intro a b h
    unfold calculateSimilarity
    rw [if_pos h]
  · intro a b h
    unfold calculateSimilarity
    rw [if_neg (by omega)]
    dsimp only
    rw [sqrt_sumSq_eq, sqrt_sumSq_eq, dot_eq_dotSpec]

/-- Witness for C3 at a concrete input: the cosine of [1,0] and [0,1]
evaluates to 0. -/
theorem calculateSimilarity_cosine_witness :
    calculateSimilarity [(1 : ℝ), 0] [0, 1] = .ok (some 0) := by
  have h := calculateSimilarity_cosine.2.2 [(1 : ℝ), 0] [0, 1] rfl
  rw [h]
  have hn : l2norm [(1 : ℝ), 0] = 1 := by
    simp [l2norm]
  have hn' : l2norm [(0 : ℝ), 1] = 1 := by
    simp [l2norm]
  have hd : dotSpec [(1 : ℝ), 0] [0, 1] = 0 := by
    simp [dotSpec, List.zip]
  rw [hn, hn', hd]
  norm_num

/-- C7: on equal-length vectors, calculateSimilarity is symmetric. -/
theorem calculateSimilarity_symm (a b : List ℝ) (h : a.length = b.length) :
    calculateSimilarity a b = calculateSimilarity b a := by
  unfold calculateSimilarity
  rw [if_neg (show ¬a.length ≠ b.length by omega),
    if_neg (show ¬b.length ≠ a.length by omega)]
  dsimp only
  have hdot : List.zipWith (fun x y => x * y) a b = List.zipWith (fun x y => x * y) b a :=
    List.zipWith_comm_of_comm _ mul_comm a b
  rw [hdot, mul_comm (Real.sqrt (List.zipWith (fun x y => x * y) b b).sum)
    (Real.sqrt (List.zipWith (fun x y => x * y) a a).sum)]

/-- Witness for C7 at a concrete input. -/
theorem calculateSimilarity_symm_witness :
    calculateSimilarity [(1 : ℝ), 2] [3, 4] = calculateSimilarity [(3 : ℝ), 4] [1, 2] :=
  calculateSimilarity_symm [(1 : ℝ), 2] [(3 : ℝ), 4] rfl

/-- C8: for a non-zero vector, calculateSimilarity of the vector with
itself is exactly 1 (the model computes with exact real arithmetic, so the
floating-point tolerance of the claim collapses to equality). -/
theorem calculateSimilarity_self (a : List ℝ) (h : ∃ x ∈ a, x ≠ 0) :
    calculateSimilarity a a = .ok (some 1) := by
  obtain ⟨x, hx, hx0⟩ := h
  have hpos : 0 < (List.zipWith (fun x y => x * y) a a).sum := by
    rw [sumSq_eq]
    have hle : x ^ 2 ≤ (a.map (fun y => y ^ 2)).sum := by
      apply List.single_le_sum
      · intro y hy
        obtain ⟨z, _, rfl⟩ := List.mem_map.mp hy
        positivity
      · exact List.mem_map_of_mem _ hx
    have hx2 : 0 < x ^ 2 := by positivity
    linarith
  unfold calculateSimilarity
  rw [if_neg (by omega)]
  dsimp only
  rw [Real.mul_self_sqrt hpos.le, if_neg hpos.ne', div_self hpos.ne']

/-- Witness for C8 at a concrete input. -/
theorem calculateSimilarity_self_witness :
    calculateSimilarity [(1 : ℝ)] [1] = .ok (some 1) :=
  calculateSimilarity_self [(1 : ℝ)] ⟨1, List.mem_singleton_self 1, one_ne_zero⟩

/-- C6: initialize() is idempotent with at-most-once effective execution
(an already-initialized state is returned unchanged with no error), on
double acquisition failure it throws the initialization error leaving the
state untouched (hence still uninitialized), and a subsequent call against
an environment whose CPU acquisition succeeds initializes the backend
(the retry is not blocked by the earlier failure). -/
theorem initBackend_idempotent_retryable :
    (∀ (env : Env) (s : BackendState), s.isInitialized = true →
        initBackend env s = (s, none))
    ∧ (∀ (env : Env) (s : BackendState), s.isInitialized = false →
        env.gpu = none → env.cpu = none →
        initBackend env s = (s, some "Failed to initialize local embedding model"))
    ∧ (∀ (env env2 : Env) (s : BackendState) (f : ExtractFn),
        s.isInitialized = false → env.gpu = none → env.cpu = none →
        env2.cpu = some f →
        (initBackend env2 (initBackend env s).1).1.isInitialized = true
        ∧ (initBackend env2 (initBackend env s).1).2 = none) := by
  refine ⟨?_, ?_, ?_⟩
  · intro env s h
    simp [initBackend, h]
  · intro env s h hg hc
    simp [initBackend, h, hg, hc]
  · intro env env2 s f h hg hc hf
    have hfail : (initBackend env s).1 = s := by
      simp [initBackend, h, hg, hc]
    rw [hfail]
    cases hg2 : env2.gpu <;> simp [initBackend, h, hf, hg2]

/-- Witness for C6 at concrete environments and state. -/
theorem initBackend_idempotent_retryable_witness :
    (initBackend ⟨none, some (fun _ => none), fun _ => 0⟩
        (initBackend ⟨none, none, fun _ => 0⟩ ⟨false, none⟩).1).1.isInitialized = true
    ∧ (initBackend ⟨none, some (fun _ => none), fun _ => 0⟩
        (initBackend ⟨none, none, fun _ => 0⟩ ⟨false, none⟩).1).2 = none :=
  initBackend_idempotent_retryable.2.2 ⟨none, none, fun _ => 0⟩
    ⟨none, some (fun _ => none), fun _ => 0⟩ ⟨false, none⟩ (fun _ => none) rfl rfl rfl rfl

/-- C1 counterexample: with an uninitialized backend state and both
pipeline acquisitions failing, generateEmbedding propagates the
initialization error instead of returning a 384-component vector; the
lazy initialize() call sits outside the try/catch of the source. -/
theorem generateEmbedding_init_error_raises :
    (generateEmbedding ⟨none, none, fun _ => 0⟩ ⟨false, none⟩ "hello").2
      = .error "Failed to initialize local embedding model" := rfl

/-- C1 as amended: when the backend state is already initialized and the
feature-extraction call fails (or the extractor is absent), the error is
swallowed and a 384-component pseudo-random vector with entries in [-1, 1]
is returned; but when the state is uninitialized and both acquisitions
fail, the initialization error propagates out of generateEmbedding. -/
theorem generateEmbedding_fallback :
    (∀ (env : Env) (s : BackendState) (text : String),
        (∀ i, 0 ≤ env.rand i ∧ env.rand i < 1) →
        s.isInitialized = true →
        (∀ f, s.extractor = some f → f (preprocessText text) = none) →
        ∃ v, (generateEmbedding env s text).2 = .ok v
          ∧ v.length = 384 ∧ ∀ x ∈ v, -1 ≤ x ∧ x ≤ 1)
    ∧ (∀ (env : Env) (s : BackendState) (text : String),
        s.isInitialized = false → env.gpu = none → env.cpu = none →
        (generateEmbedding env s text).2
          = .error "Failed to initialize local embedding model") := by
  have hrv : ∀ (env : Env), (∀ i, 0 ≤ env.rand i ∧ env.rand i < 1) →
      (randomVector env.rand).length = 384
      ∧ ∀ x ∈ randomVector env.rand, -1 ≤ x ∧ x ≤ 1 := by
    intro env hrand
    constructor
    · simp [randomVector]
    · intro x hx
      simp only [randomVector, List.mem_map, List.mem_range] at hx
      obtain ⟨i, _, rfl⟩ := hx
      obtain ⟨h0, h1⟩ := hrand i
      constructor <;> nlinarith
  constructor
  · intro env s text hrand hinit hext
    unfold generateEmbedding
    rw [if_pos hinit]
    cases hx : s.extractor with
    | none =>
      exact ⟨randomVector env.rand, by simp [hx], (hrv env hrand).1, (hrv env hrand).2⟩
    | some f =>
      have hf := hext f hx
      exact ⟨randomVector env.rand, by simp [hx, hf], (hrv env hrand).1, (hrv env hrand).2⟩
  · intro env s text hinit hg hc
    unfold generateEmbedding
    rw [if_neg (by simp [hinit])]
    simp [initBackend, hinit, hg, hc]

/-- Witness for C1 at a concrete environment and state: the fallback
branch produces a valid 384-component vector. -/
theorem generateEmbedding_fallback_witness :
    ∃ v, (generateEmbedding ⟨none, none, fun _ => 0⟩ ⟨true, none⟩ "x").2 = .ok v
      ∧ v.length = 384 ∧ ∀ x ∈ v, -1 ≤ x ∧ x ≤ 1 :=
  generateEmbedding_fallback.1 ⟨none, none, fun _ => 0⟩ ⟨true, none⟩ "x"
    (fun _ => by norm_num) rfl (fun f hf => by simp at hf)

lemma head?_take_eq_some {α : Type} (l : List α) (n : ℕ) (c : α)
    (h : (l.take n).head? = some c) : l.head? = some c := by
  cases n with
  | zero => simp at h
  | succ m =>
    cases l with
    | nil => simp at h
    | cons a as => simpa using h

lemma head?_dropWhile_false {α : Type} (p : α → Bool) (l : List α) (c : α)
    (h : (l.dropWhile p).head? = some c) : p c = false := by
  induction l with
  | nil => simp at h
  | cons a as ih =>
    rw [List.dropWhile_cons] at h
    by_cases hp : p a = true
    · rw [if_pos hp] at h
      exact ih h
    · rw [if_neg hp] at h
      simp at h
      rw [h] at hp
      simpa using hp

lemma jsTrim_append (l : List Char) :
    ∃ t, l.dropWhile isWs = jsTrim l ++ t := by
  refine ⟨((l.dropWhile isWs).reverse.takeWhile isWs).reverse, ?_⟩
  unfold jsTrim
  rw [← List.reverse_append, List.takeWhile_append_dropWhile, List.reverse_reverse]

lemma head?_jsTrim_eq_some (l : List Char) (c : Char)
    (h : (jsTrim l).head? = some c) : (l.dropWhile isWs).head? = some c := by
  obtain ⟨t, ht⟩ := jsTrim_append l
  rw [ht]
  cases hj : jsTrim l with
  | nil => rw [hj] at h; simp at h
  | cons d ds =>
    rw [hj] at h
    simp at h
    simp [h]

/-- C5 counterexample: preprocessText keeps both exclamation marks of
"  Hello   World!!  " ('!' is in the allowed class), so the spec's
expected output "Hello World!" is wrong. -/
theorem preprocessText_example_counterexample :
    preprocessText "  Hello   World!!  " = "Hello World!!"
    ∧ preprocessText "  Hello   World!!  " ≠ "Hello World!" := by
  decide

/-- C5 as amended: preprocessText collapses whitespace runs to single
spaces, strips the disallowed characters, trims and truncates to 4000
characters, so every output character is in the allowed class, the output
length is at most 4000 and the output never starts with whitespace; on the
spec's example input it returns "Hello World!!" (both exclamation marks
kept), not "Hello World!". -/
theorem preprocessText_props :
    (∀ s : String,
        (preprocessText s).length ≤ 4000
        ∧ (∀ c ∈ (preprocessText s).data, keepChar c = true)
        ∧ (∀ c, (preprocessText s).data.head? = some c → isWs c = false))
    ∧ preprocessText "  Hello   World!!  " = "Hello World!!" := by
  constructor
  · intro s
    refine ⟨?_, ?_, ?_⟩
    · show ((jsTrim ((collapseWs s.data).filter keepChar)).take 4000).length ≤ 4000
      rw [List.length_take]
      omega
    · intro c hc
      have hc' : c ∈ (jsTrim ((collapseWs s.data).filter keepChar)).take 4000 := hc
      have hc2 := List.mem_of_mem_take hc'
      unfold jsTrim at hc2
      rw [List.mem_reverse] at hc2
      have hc3 := (List.dropWhile_sublist isWs).subset hc2
      rw [List.mem_reverse] at hc3
      have hc4 := (List.dropWhile_sublist isWs).subset hc3
      exact (List.mem_filter.mp hc4).2
    · intro c hc
      have hc' : ((jsTrim ((collapseWs s.data).filter keepChar)).take 4000).head? = some c := hc
      have hc2 := head?_take_eq_some _ _ _ hc'
      have hc3 := head?_jsTrim_eq_some _ _ hc2
      exact head?_dropWhile_false _ _ _ hc3
  · decide

/-- Witness for C5 at a concrete input: the character 'H' of the amended
example output is in the allowed class. -/
theorem preprocessText_props_witness : keepChar 'H' = true :=
  (preprocessText_props.1 "  Hello   World!!  ").2.1 'H' (by decide)

/-- C10: chunkText on the empty string with the default parameters
(chunkSize 500, overlap 50) returns the one-element list holding the empty
string, because splitting the empty string on whitespace yields one empty
word. -/
theorem chunkText_empty_string : chunkText "" 500 50 = [""] := by
  have hw : jsSplitWs "" = [""] := by decide
  unfold chunkText
  rw [hw]
  rw [chunkLoop]
  rw [dif_pos (by norm_num), dif_pos (by norm_num)]
  rw [chunkLoop]
  rw [dif_neg (by norm_num)]
  decide

lemma chunkLoop_getElem (words : List String) (chunkSize step : ℕ) (hstep : 0 < step) :
    ∀ (j i : ℕ), (chunkLoop words chunkSize step i)[j]? =
      if i + j * step < words.length
      then some (String.intercalate " " ((words.drop (i + j * step)).take chunkSize))
      else none := by
  intro j
  induction j with
  | zero =>
    intro i
    rw [chunkLoop]
    by_cases h : i < words.length
    · rw [dif_pos h]
      simp [h]
    · rw [dif_neg h]
      simp [h]
  | succ j ih =>
    intro i
    rw [chunkLoop]
    by_cases h : i < words.length
    · rw [dif_pos h, dif_pos hstep]
      rw [List.getElem?_cons_succ, ih (i + step)]
      have harith : i + step + j * step = i + (j + 1) * step := by ring
      rw [harith]
    · rw [dif_neg h]
      have hge : ¬ (i + (j + 1) * step < words.length) := by
        have := Nat.le_add_right i ((j + 1) * step)
        omega
      simp [hge]

/-- C4: for overlap < chunkSize, chunkText terminates with the finite list
of chunks whose j-th entry is the slice of chunkSize words starting at
word index j * (chunkSize - overlap), joined by single spaces, the
iteration stopping once the start index reaches the word count; in
particular the spec's worked example holds. -/
theorem chunkText_window :
    (∀ (text : String) (chunkSize overlap : ℕ), overlap < chunkSize →
      ∀ j : ℕ, (chunkText text chunkSize overlap)[j]? =
        if j * (chunkSize - overlap) < (jsSplitWs text).length
        then some (String.intercalate " "
          (((jsSplitWs text).drop (j * (chunkSize - overlap))).take chunkSize))
        else none)
    ∧ chunkText "w1 w2 w3 w4 w5" 3 1 = ["w1 w2 w3", "w3 w4 w5", "w5"] := by
  constructor
  · intro text chunkSize overlap h j
    have hstep : 0 < chunkSize - overlap := by omega
    have hmain := chunkLoop_getElem (jsSplitWs text) chunkSize (chunkSize - overlap) hstep j 0
    unfold chunkText
    rw [hmain]
    norm_num
  · have hw : jsSplitWs "w1 w2 w3 w4 w5" = ["w1", "w2", "w3", "w4", "w5"] := by decide
    unfold chunkText
    rw [hw]
    rw [chunkLoop, dif_pos (by norm_num), dif_pos (by norm_num)]
    rw [chunkLoop, dif_pos (by norm_num), dif_pos (by norm_num)]
    rw [chunkLoop, dif_pos (by norm_num), dif_pos (by norm_num)]
    rw [chunkLoop, dif_neg (by norm_num)]
    decide

/-- Witness for C4 at the worked example: reading past the last chunk of
the example text gives none (the loop has stopped), via the general
window statement. -/
theorem chunkText_window_witness :
    (chunkText "w1 w2 w3 w4 w5" 3 1)[3]? = none := by
  have h := chunkText_window.1 "w1 w2 w3 w4 w5" 3 1 (by norm_num) 3
  rw [h]
  have hw : jsSplitWs "w1 w2 w3 w4 w5" = ["w1", "w2", "w3", "w4", "w5"] := by decide
  rw [hw]
  norm_num

lemma jsGeNum_trans (x y z : JsNum) (h1 : jsGeNum x y) (h2 : jsGeNum y z) :
    jsGeNum x z := by
  obtain ⟨u, v, hx, hy, hvu⟩ := h1
  obtain ⟨v', w, hy', hz, hwv⟩ := h2
  rw [hy] at hy'
  injection hy' with hvv
  refine ⟨u, w, hx, hz, ?_⟩
  rw [← hvv] at hwv
  exact hwv.trans hvu

lemma jsGeNum_total (x y : JsNum) (hx : x ≠ none) (hy : y ≠ none)
    (h : ¬ jsGeNum x y) : jsGeNum y x := by
  obtain ⟨u, hu⟩ := Option.ne_none_iff_exists'.mp hx
  obtain ⟨v, hv⟩ := Option.ne_none_iff_exists'.mp hy
  refine ⟨v, u, hv, hu, ?_⟩
  by_contra hle
  exact h ⟨u, v, hu, hv, le_of_not_le hle⟩

lemma mem_insertDesc {M : Type} (x z : ScoredDoc M) (l : List (ScoredDoc M)) :
    z ∈ insertDesc x l ↔ z = x ∨ z ∈ l := by
  induction l with
  | nil => simp [insertDesc]
  | cons y ys ih =>
    rw [insertDesc]
    by_cases h : jsGeNum x.similarity y.similarity
    · rw [if_pos h]
      simp
    · rw [if_neg h]
      simp [ih]
      tauto

lemma mem_sortDesc {M : Type} (z : ScoredDoc M) (l : List (ScoredDoc M)) :
    z ∈ sortDesc l ↔ z ∈ l := by
  induction l with
  | nil => simp [sortDesc]
  | cons y ys ih =>
    have hstep : sortDesc (y :: ys) = insertDesc y (sortDesc ys) := rfl
    rw [hstep, mem_insertDesc]
    simp [ih]

lemma pairwise_insertDesc {M : Type} (x : ScoredDoc M) (l : List (ScoredDoc M))
    (hx : x.similarity ≠ none) (hl : ∀ z ∈ l, z.similarity ≠ none)
    (h : l.Pairwise (fun a b => jsGeNum a.similarity b.similarity)) :
    (insertDesc x l).Pairwise (fun a b => jsGeNum a.similarity b.similarity) := by
  induction l with
  | nil => simp [insertDesc]
  | cons y ys ih =>
    rw [insertDesc]
    rw [List.pairwise_cons] at h
    obtain ⟨hy, hys⟩ := h
    by_cases hxy : jsGeNum x.similarity y.similarity
    · rw [if_pos hxy]
      refine List.Pairwise.cons ?_ (List.Pairwise.cons hy hys)
      intro z hz
      rcases List.mem_cons.mp hz with rfl | hz
      · exact hxy
      · exact jsGeNum_trans _ _ _ hxy (hy z hz)
    · rw [if_neg hxy]
      refine List.Pairwise.cons ?_
        (ih (fun z hz => hl z (List.mem_cons_of_mem y hz)) hys)
      intro z hz
      rcases (mem_insertDesc x z ys).mp hz with rfl | hz
      · exact jsGeNum_total _ _ hx (hl y (List.mem_cons_self y ys)) hxy
      · exact hy z hz

lemma pairwise_sortDesc {M : Type} (l : List (ScoredDoc M))
    (hl : ∀ z ∈ l, z.similarity ≠ none) :
    (sortDesc l).Pairwise (fun a b => jsGeNum a.similarity b.similarity) := by
  induction l with
  | nil => simp [sortDesc]
  | cons y ys ih =>
    have hstep : sortDesc (y :: ys) = insertDesc y (sortDesc ys) := rfl
    rw [hstep]
    exact pairwise_insertDesc y (sortDesc ys) (hl y (List.mem_cons_self y ys))
      (fun z hz => hl z (List.mem_cons_of_mem y ((mem_sortDesc z ys).mp hz)))
      (ih (fun z hz => hl z (List.mem_cons_of_mem y hz)))

lemma filter_insertDesc {M : Type} (x : ScoredDoc M) (l : List (ScoredDoc M)) (s : JsNum)
    (hx : x.similarity ≠ none) (hl : ∀ z ∈ l, z.similarity ≠ none) :
    (insertDesc x l).filter (fun r => decide (r.similarity = s)) =
      if x.similarity = s
      then x :: l.filter (fun r => decide (r.similarity = s))
      else l.filter (fun r => decide (r.similarity = s)) := by
  induction l with
  | nil =>
    rw [insertDesc]
    by_cases hxs : x.similarity = s
    · rw [if_pos hxs, List.filter_cons, if_pos (by simpa using hxs)]
    · rw [if_neg hxs, List.filter_cons, if_neg (by simpa using hxs)]
  | cons y ys ih =>
    rw [insertDesc]
    by_cases hxy : jsGeNum x.similarity y.similarity
    · rw [if_pos hxy]
      by_cases hxs : x.similarity = s
      · rw [if_pos hxs, List.filter_cons, if_pos (by simpa using hxs)]
      · rw [if_neg hxs, List.filter_cons, if_neg (by simpa using hxs)]
    · rw [if_neg hxy]
      have hyn : y.similarity ≠ none := hl y (List.mem_cons_self y ys)
      have ihy := ih (fun z hz => hl z (List.mem_cons_of_mem y hz))
      by_cases hys : y.similarity = s
      · by_cases hxs : x.similarity = s
        · exfalso
          apply hxy
          obtain ⟨u, hu⟩ := Option.ne_none_iff_exists'.mp hx
          refine ⟨u, u, hu, ?_, le_refl u⟩
          rw [hys, ← hxs, hu]
        · rw [if_neg hxs, List.filter_cons, List.filter_cons,
            if_pos (by simpa using hys), if_pos (by simpa using hys), ihy,
            if_neg hxs]
      · by_cases hxs : x.similarity = s
        · rw [if_pos hxs, List.filter_cons, List.filter_cons,
            if_neg (by simpa using hys), if_neg (by simpa using hys), ihy,
            if_pos hxs]
        · rw [if_neg hxs, List.filter_cons, List.filter_cons,
            if_neg (by simpa using hys), if_neg (by simpa using hys), ihy,
            if_neg hxs]

lemma filter_sortDesc {M : Type} (l : List (ScoredDoc M)) (s : JsNum)
    (hl : ∀ z ∈ l, z.similarity ≠ none) :
    (sortDesc l).filter (fun r => decide (r.similarity = s)) =
      l.filter (fun r => decide (r.similarity = s)) := by
  induction l with
  | nil => simp [sortDesc]
  | cons y ys ih =>
    have hstep : sortDesc (y :: ys) = insertDesc y (sortDesc ys) := rfl
    rw [hstep,
      filter_insertDesc y (sortDesc ys) s (hl y (List.mem_cons_self y ys))
        (fun z hz => hl z (List.mem_cons_of_mem y ((mem_sortDesc z ys).mp hz))),
      ih (fun z hz => hl z (List.mem_cons_of_mem y hz)), List.filter_cons]
    by_cases h : y.similarity = s
    · rw [if_pos h, if_pos (by simpa using h)]
    · rw [if_neg h, if_neg (by simpa using h)]

/-- The similarity value findSimilarDocuments attaches to one document on
the success path (NaN when cosine is undefined); used to describe its
output list. -/
noncomputable def simOrNaN (q e : List ℝ) : JsNum :=
  match calculateSimilarity q e with
  | .ok v => v
  | .error _ => none

/-- The scored record findSimilarDocuments builds for one document on the
success path. -/
noncomputable def scored {M : Type} (q : List ℝ) (d : DocEmbedding M) : ScoredDoc M :=
  ⟨d.id, d.embedding, d.metadata, simOrNaN q d.embedding⟩

lemma mapM_scoreDoc_ok {M : Type} (q : List ℝ) (docs : List (DocEmbedding M))
    (ys : List (ScoredDoc M)) (h : docs.mapM (scoreDoc q) = .ok ys) :
    ys = docs.map (scored q) := by
  induction docs generalizing ys with
  | nil =>
    rw [List.mapM_nil] at h
    have h' : Except.ok ([] : List (ScoredDoc M)) = Except.ok ys := h
    injection h' with h''
    rw [← h'']
    rfl
  | cons d ds ih =>
    rw [List.mapM_cons] at h
    cases hy : scoreDoc q d with
    | error e =>
      rw [hy] at h
      cases (show (Except.error e : Except String (List (ScoredDoc M))) = .ok ys from h)
    | ok y =>
      rw [hy] at h
      cases hys : ds.mapM (scoreDoc q) with
      | error e =>
        rw [hys] at h
        cases (show (Except.error e : Except String (List (ScoredDoc M))) = .ok ys from h)
      | ok ys' =>
        rw [hys] at h
        have h' : Except.ok (y :: ys') = Except.ok ys := h
        injection h' with h''
        have hyv : y = scored q d := by
          unfold scoreDoc at hy
          cases hc : calculateSimilarity q d.embedding with
          | error e =>
            rw [hc] at hy
            cases (show (Except.error e : Except String (ScoredDoc M)) = .ok y from hy)
          | ok v =>
            rw [hc] at hy
            have h2 : Except.ok (⟨d.id, d.embedding, d.metadata, v⟩ : ScoredDoc M)
                = Except.ok y := hy
            injection h2 with h3
            rw [← h3]
            unfold scored simOrNaN
            rw [hc]
        rw [← h'', hyv, List.map_cons, ih ys' hys]

lemma mapM_scoreDoc_of_dims {M : Type} (q : List ℝ) (docs : List (DocEmbedding M))
    (h : ∀ d ∈ docs, d.embedding.length = q.length) :
    docs.mapM (scoreDoc q) = .ok (docs.map (scored q)) := by
  induction docs with
  | nil => rfl
  | cons d ds ih =>
    rw [List.mapM_cons]
    have hlen : q.length = d.embedding.length :=
      (h d (List.mem_cons_self d ds)).symm
    have hd : ∃ v, calculateSimilarity q d.embedding = .ok v := by
      unfold calculateSimilarity
      rw [if_neg (by omega)]
      dsimp only
      by_cases hz : Real.sqrt (List.zipWith (fun x y => x * y) q q).sum *
          Real.sqrt (List.zipWith (fun x y => x * y)
            d.embedding d.embedding).sum = 0
      · exact ⟨none, by rw [if_pos hz]⟩
      · exact ⟨_, by rw [if_neg hz]⟩
    obtain ⟨v, hv⟩ := hd
    have hsim : simOrNaN q d.embedding = v := by
      unfold simOrNaN
      rw [hv]
    have hsc : scoreDoc q d = .ok (scored q d) := by
      unfold scoreDoc scored
      rw [hv, hsim]
      rfl
    rw [hsc, ih (fun d' h' => h d' (List.mem_cons_of_mem d h'))]
    rfl

/-- C2: when findSimilarDocuments succeeds, every returned entry has
similarity at least the threshold, at most limit entries are returned,
they are sorted in descending order of similarity, and ties preserve the
original input order: for each similarity value, the returned entries
carrying it form a subsequence of the scored input in input order (the
ES2019 sort underlying the source is stable). -/
theorem findSimilarDocuments_ranking {M : Type} (q : List ℝ)
    (docs : List (DocEmbedding M)) (t : ℝ) (lim : ℕ) (out : List (ScoredDoc M))
    (h : findSimilarDocuments q docs t lim = .ok out) :
    (∀ r ∈ out, jsGe r.similarity t)
    ∧ out.length ≤ lim
    ∧ out.Pairwise (fun a b => jsGeNum a.similarity b.similarity)
    ∧ (∀ s : JsNum, List.Sublist
        (out.filter (fun r => decide (r.similarity = s)))
        ((docs.map (scored q)).filter (fun r => decide (r.similarity = s)))) := by
  unfold findSimilarDocuments at h
  cases hm : docs.mapM (scoreDoc q) with
  | error e =>
    rw [hm] at h
    simp [Except.map] at h
  | ok ys =>
    rw [hm] at h
    simp only [Except.map] at h
    cases h
    have hys := mapM_scoreDoc_ok q docs ys hm
    have hfil : ∀ z ∈ ys.filter (fun d => decide (jsGe d.similarity t)),
        jsGe z.similarity t := by
      intro z hz
      have := (List.mem_filter.mp hz).2
      simpa using this
    have hsome : ∀ z ∈ ys.filter (fun d => decide (jsGe d.similarity t)),
        z.similarity ≠ none := by
      intro z hz
      obtain ⟨v, hv, _⟩ := hfil z hz
      rw [hv]
      simp
    refine ⟨?_, ?_, ?_, ?_⟩
    · intro r hr
      have hr1 := List.mem_of_mem_take hr
      have hr2 := (mem_sortDesc r _).mp hr1
      exact hfil r hr2
    · exact List.length_take_le lim _
    · exact List.Pairwise.sublist ((sortDesc _).take_sublist lim)
        (pairwise_sortDesc _ hsome)
    · intro s
      have h1 : List.Sublist
          (((sortDesc (ys.filter (fun d => decide (jsGe d.similarity t)))).take
            lim).filter (fun r => decide (r.similarity = s)))
          ((sortDesc (ys.filter (fun d => decide (jsGe d.similarity t)))).filter
            (fun r => decide (r.similarity = s))) :=
        ((sortDesc _).take_sublist lim).filter _
      rw [filter_sortDesc _ s hsome] at h1
      have h2 : List.Sublist
          (((ys.filter (fun d => decide (jsGe d.similarity t))).filter
            (fun r => decide (r.similarity = s))))
          (ys.filter (fun r => decide (r.similarity = s))) :=
        (ys.filter_sublist).filter _
      rw [← hys]
      exact h1.trans h2

/-- Witness for C2 at a concrete query and document list. -/
theorem findSimilarDocuments_ranking_witness :
    (∀ r ∈ [(⟨"d1", [(1 : ℝ)], (), some 1⟩ : ScoredDoc Unit)], jsGe r.similarity 0)
    ∧ [(⟨"d1", [(1 : ℝ)], (), some 1⟩ : ScoredDoc Unit)].length ≤ 5
    ∧ [(⟨"d1", [(1 : ℝ)], (), some 1⟩ : ScoredDoc Unit)].Pairwise
        (fun a b => jsGeNum a.similarity b.similarity)
    ∧ (∀ s : JsNum, List.Sublist
        ([(⟨"d1", [(1 : ℝ)], (), some 1⟩ : ScoredDoc Unit)].filter
          (fun r => decide (r.similarity = s)))
        ((([⟨"d1", [(1 : ℝ)], ()⟩] : List (DocEmbedding Unit)).map
          (scored [(1 : ℝ)])).filter (fun r => decide (r.similarity = s)))) := by
  have hcalc : calculateSimilarity [(1 : ℝ)] [(1 : ℝ)] = .ok (some 1) := by
    unfold calculateSimilarity
    rw [if_neg (by norm_num)]
    dsimp only
    norm_num [Real.sqrt_one]
  have hscored : scored [(1 : ℝ)] (⟨"d1", [(1 : ℝ)], ()⟩ : DocEmbedding Unit)
      = ⟨"d1", [(1 : ℝ)], (), some 1⟩ := by
    unfold scored simOrNaN
    rw [hcalc]
  have h : findSimilarDocuments [(1 : ℝ)]
      ([⟨"d1", [(1 : ℝ)], ()⟩] : List (DocEmbedding Unit)) 0 5
      = .ok [⟨"d1", [(1 : ℝ)], (), some 1⟩] := by
    unfold findSimilarDocuments
    rw [List.mapM_cons, List.mapM_nil]
    have hsc : scoreDoc [(1 : ℝ)] (⟨"d1", [(1 : ℝ)], ()⟩ : DocEmbedding Unit)
        = .ok ⟨"d1", [(1 : ℝ)], (), some 1⟩ := by
      unfold scoreDoc
      rw [hcalc]
      rfl
    rw [hsc]
    show Except.ok (((sortDesc (List.filter _ [⟨"d1", [(1 : ℝ)], (), some 1⟩])).take 5)) = _
    rw [List.filter_cons, if_pos (by simp [jsGe])]
    rfl
  exact findSimilarDocuments_ranking [(1 : ℝ)] _ 0 5 _ h

/-- C9: when every document embedding matches the query's dimension,
findSimilarDocuments returns normally (no error) even if some similarity
is NaN (for example a zero query or document vector); every returned entry
has a non-NaN similarity, and any document whose similarity is NaN is
silently excluded, because the JS comparison NaN at-least-threshold is
false. -/
theorem findSimilarDocuments_nan_excluded {M : Type} (q : List ℝ)
    (docs : List (DocEmbedding M)) (t : ℝ) (lim : ℕ)
    (hdims : ∀ d ∈ docs, d.embedding.length = q.length) :
    ∃ out, findSimilarDocuments q docs t lim = .ok out
      ∧ (∀ r ∈ out, r.similarity ≠ none)
      ∧ (∀ d ∈ docs, calculateSimilarity q d.embedding = .ok none →
          scored q d ∉ out) := by
  have hok := mapM_scoreDoc_of_dims q docs hdims
  refine ⟨(sortDesc ((docs.map (scored q)).filter
      (fun d => decide (jsGe d.similarity t)))).take lim, ?_, ?_, ?_⟩
  · unfold findSimilarDocuments
    rw [hok]
    rfl
  · intro r hr
    have hr1 := List.mem_of_mem_take hr
    have hr2 := (mem_sortDesc r _).mp hr1
    have := (List.mem_filter.mp hr2).2
    simp only [decide_eq_true_eq] at this
    obtain ⟨v, hv, _⟩ := this
    rw [hv]
    simp
  · intro d hd hnan hmem
    have hr1 := List.mem_of_mem_take hmem
    have hr2 := (mem_sortDesc _ _).mp hr1
    have := (List.mem_filter.mp hr2).2
    simp only [decide_eq_true_eq] at this
    obtain ⟨v, hv, _⟩ := this
    have : (scored q d).similarity = none := by
      unfold scored simOrNaN
      rw [hnan]
    rw [this] at hv
    cases hv

/-- Witness for C9 at a concrete query and a zero-vector document. -/
theorem findSimilarDocuments_nan_excluded_witness :
    ∃ out, findSimilarDocuments [(1 : ℝ), 0]
        ([⟨"z", [0, 0], ()⟩] : List (DocEmbedding Unit)) (1 / 2) 5 = .ok out
      ∧ (∀ r ∈ out, r.similarity ≠ none)
      ∧ (∀ d ∈ ([⟨"z", [0, 0], ()⟩] : List (DocEmbedding Unit)),
          calculateSimilarity [(1 : ℝ), 0] d.embedding = .ok none →
          scored [(1 : ℝ), 0] d ∉ out) :=
  findSimilarDocuments_nan_excluded [(1 : ℝ), 0] _ (1 / 2) 5
    (fun d hd => by simp at hd; rw [hd]; rfl)
